import Mathlib

/-
Verification development for the keyboard debounce monitor
(src/debounce_keyboard.py).  The definitions below are a shallow
embedding of the event-arbitration and debounce core: the per-edge
bounce check of monitor_keyboard (both detection modes), the
pause/shortcut handling that precedes it, the repeat-task bookkeeping
(start_repeat / stop_repeat and the loop guard of repeat_thread_func),
manual_pause_action, and the per-iteration grab reconciliation.
Timestamps and thresholds are modelled as integers in one fixed time
unit (milliseconds in the concrete scenarios below): the debounce
logic only ever compares differences of timestamps with thresholds,
so the choice of unit is immaterial.  The synthetic-output sink is
modelled as possibly failing (emitFail), mirroring the try/except
blocks around uinput emission.
-/

namespace Debounce

abbrev Key := String
abbrev Time := ℤ

/-- One raw key edge as read by the monitor loop: keycode, keystate
(1 = down, 0 = up, 2 = hardware auto-repeat) and timestamp. -/
structure KeyEdge where
  key : Key
  keystate : Nat
  time : Time
deriving DecidableEq, Repr

/-- The detection mode: bounce_mode is the string "down" (AfterPress)
or "up" (AfterRelease) in the source. -/
inductive BounceMode
  | down
  | up
deriving DecidableEq, Repr

/-- The events pushed onto event_queue (msg_id tags of queue_input_event,
queue_bounce_event, queue_stats_press, queue_stats_bounce). -/
inductive Event
  | inject_down_pause (k : Key)
  | inject_up_pause (k : Key)
  | pause_activated (k : Key)
  | continue_activated (k : Key)
  | grab_enabled
  | grab_failed_qemu_active
  | bounce_detected (k : Key)
  | stats_press (k : Key)
  | stats_bounce (k : Key)
  | inject_down_custom (k : Key)
  | inject_down_error (k : Key)
  | inject_up_error (k : Key)
  | inject_up_custom (k : Key)
  | inject_down_first_global (k : Key)
  | inject_down_subsequent (k : Key)
  | inject_up (k : Key)
  | manual_pause
deriving DecidableEq, Repr

/-- The classification of one edge by the bounce filter. An Up edge
that is silently swallowed by the code (its key not in valid_keys,
resp. its blocked flag set) is recorded as suppress_up. -/
inductive FilterDecision
  | accept_down (k : Key) (t : Time)
  | suppress_down (k : Key) (t : Time)
  | accept_up (k : Key) (t : Time)
  | suppress_up (k : Key) (t : Time)
deriving DecidableEq, Repr

/-- A synthetic emission on the uinput device: key, direction
(true = press / value 1, false = release / value 0), and the timestamp
of the edge being processed when it was emitted. -/
abbrev Emission := Key × Bool × Time

/-- normalize_key from the source. -/
def normalize_key (key : Key) : Key :=
  match key with
  | "KEY_CONTROL_L" => "KEY_LEFTCTRL"
  | "KEY_CONTROL_R" => "KEY_RIGHTCTRL"
  | "KEY_ALT_L" => "KEY_LEFTALT"
  | "KEY_ALT_R" => "KEY_RIGHTALT"
  | "KEY_SHIFT_L" => "KEY_LEFTSHIFT"
  | "KEY_SHIFT_R" => "KEY_RIGHTSHIFT"
  | "KEY_SCROLL_LOCK" => "KEY_SCROLLLOCK"
  | _ => key

/-- is_modifier from the source. -/
def is_modifier (key_name : Key) : Bool :=
  match key_name with
  | "KEY_LEFTSHIFT" | "KEY_RIGHTSHIFT"
  | "KEY_LEFTCTRL" | "KEY_RIGHTCTRL"
  | "KEY_LEFTALT" | "KEY_RIGHTALT"
  | "KEY_LEFTMETA" | "KEY_RIGHTMETA"
  | "KEY_CAPSLOCK" | "KEY_NUMLOCK" | "KEY_SCROLLLOCK" => true
  | _ => false

/-- The configuration globals read by the monitor loop.  An unset
shortcut (empty string, falsy in Python) is modelled as none. -/
structure Config where
  bounce_mode : BounceMode
  bounce_time : Time
  custom_thresholds : Key → Option Time
  shortcut_pause : Option Key
  shortcut_continue : Option Key
  force_disable_qemu : Bool

/-- custom_thresholds.get(norm_key, bounce_time): the per-key override
if present, else the global threshold. -/
def threshold_used (cfg : Config) (key : Key) : Time :=
  (cfg.custom_thresholds key).getD cfg.bounce_time

/-- The per-key dictionaries mutated by the bounce check, plus the
repeat_threads table (true = a repeat task exists for the key and its
stop_event is not set). -/
structure FilterState where
  last_press_time_per_key : Key → Option Time
  last_release_time_per_key : Key → Option Time
  keys_were_down_blocked : Key → Bool
  last_valid_down_time_per_key : Key → Option Time
  valid_keys : Key → Option Time
  first_event_down_per_key : Key → Bool
  repeat_threads : Key → Bool

/-- Pointwise update of a per-key table. -/
def upd {α : Type} (f : Key → α) (key : Key) (v : α) : Key → α :=
  fun k' => if k' = key then v else f k'

/-- start_repeat from the source: no-op for modifiers, otherwise ensure
a running repeat task exists for the key. -/
def start_repeat (s : FilterState) (key : Key) : FilterState :=
  if is_modifier key then s
  else { s with repeat_threads := upd s.repeat_threads key true }

/-- stop_repeat from the source: set the task's stop_event and drop it
from repeat_threads. -/
def stop_repeat (s : FilterState) (key : Key) : FilterState :=
  { s with repeat_threads := upd s.repeat_threads key false }

/-- The accept condition of the AfterPress (bounce_mode "down") branch:
last_time is None or now - last_time >= threshold_used. -/
def down_accepts (cfg : Config) (s : FilterState) (nk : Key) (now : Time) : Bool :=
  match s.last_valid_down_time_per_key nk with
  | none => true
  | some t0 => decide (threshold_used cfg nk ≤ now - t0)

/-- Output of processing one edge: successor state, queued events,
synthetic emissions, and the filter decisions taken. -/
structure StepOut where
  state : FilterState
  events : List Event
  emissions : List Emission
  decisions : List FilterDecision

/-- The MAIN BOUNCE CHECK of monitor_keyboard (reached only when not
paused), translated branch for branch.  emitFail models the
synthetic-output sink raising on emit; the try/except in the source
catches it, queues an error event and continues, so the state updates
do not depend on it. -/
def filterStep (cfg : Config) (emitFail : Bool) (s : FilterState) (e : KeyEdge) : StepOut :=
  let nk := normalize_key e.key
  let now := e.time
  if cfg.bounce_mode = BounceMode.up then
    -- After Release
    if e.keystate = 1 then
      let thr := threshold_used cfg nk
      let elapsed := now - (s.last_release_time_per_key nk).getD 0
      if elapsed < thr then
        { state := stop_repeat
            { s with keys_were_down_blocked := upd s.keys_were_down_blocked nk true } nk,
          events := [Event.stats_bounce nk, Event.bounce_detected nk],
          emissions := [],
          decisions := [FilterDecision.suppress_down nk now] }
      else
        { state := start_repeat
            { s with keys_were_down_blocked := upd s.keys_were_down_blocked nk false,
                     last_press_time_per_key := upd s.last_press_time_per_key nk (some now) } nk,
          events := [Event.inject_down_custom nk, Event.stats_press nk]
            ++ (if emitFail then [Event.inject_down_error nk] else []),
          emissions := if emitFail then [] else [(nk, true, now)],
          decisions := [FilterDecision.accept_down nk now] }
    else if e.keystate = 2 then
      { state := s, events := [], emissions := [], decisions := [] }
    else
      let s1 := stop_repeat s nk
      if s1.keys_were_down_blocked nk then
        { state := { s1 with keys_were_down_blocked := upd s1.keys_were_down_blocked nk false },
          events := [],
          emissions := [],
          decisions := [FilterDecision.suppress_up nk now] }
      else
        { state := { s1 with last_release_time_per_key := upd s1.last_release_time_per_key nk (some now) },
          events := [Event.inject_up_custom nk]
            ++ (if emitFail then [Event.inject_up_error nk] else []),
          emissions := if emitFail then [] else [(nk, false, now)],
          decisions := [FilterDecision.accept_up nk now] }
  else
    -- bounce_mode "down": After Press
    if e.keystate = 1 then
      let s1 := start_repeat s nk
      if down_accepts cfg s nk now then
        { state := { s1 with
            last_valid_down_time_per_key := upd s1.last_valid_down_time_per_key nk (some now),
            first_event_down_per_key := upd s1.first_event_down_per_key nk true,
            valid_keys := upd s1.valid_keys nk (some now) },
          events := [(if s.first_event_down_per_key nk then Event.inject_down_subsequent nk
                      else Event.inject_down_first_global nk),
                     Event.stats_press nk]
            ++ (if emitFail then [Event.inject_down_error nk] else []),
          emissions := if emitFail then [] else [(nk, true, now)],
          decisions := [FilterDecision.accept_down nk now] }
      else
        { state := s1,
          events := [Event.stats_bounce nk, Event.bounce_detected nk],
          emissions := [],
          decisions := [FilterDecision.suppress_down nk now] }
    else if e.keystate = 2 then
      { state := s, events := [], emissions := [], decisions := [] }
    else
      let s1 := stop_repeat s nk
      if (s1.valid_keys nk).isSome then
        { state := { s1 with valid_keys := upd s1.valid_keys nk none },
          events := (if emitFail then [Event.inject_up_error nk] else [])
            ++ [Event.inject_up nk],
          emissions := if emitFail then [] else [(nk, false, now)],
          decisions := [FilterDecision.accept_up nk now] }
      else
        { state := s1, events := [], emissions := [],
          decisions := [FilterDecision.suppress_up nk now] }

/-- The monitor-loop state touched by pause/shortcut handling and grab
reconciliation: paused, forced_pause, the cached _qemu_active flag, the
loop-local grabbed_by_app, the reported global_keyboard_grabbed flag,
and the filter state. -/
structure MonState where
  paused : Bool
  forced_pause : Bool
  qemu_active : Bool
  grabbed_by_app : Bool
  global_keyboard_grabbed : Bool
  filter : FilterState

/-- Output of one monitor-loop edge iteration. -/
structure MonOut where
  state : MonState
  events : List Event
  emissions : List Emission
  decisions : List FilterDecision

/-- One edge iteration of monitor_keyboard after the event is read and
categorized: the pause/continue shortcut checks, the paused drop, and
otherwise the bounce check.  liveQemu models the result of the
synchronous is_qemu_kvm_active() calls made inside this iteration;
grab/ungrab calls are modelled as succeeding. -/
def processEdge (cfg : Config) (liveQemu emitFail : Bool) (s : MonState) (e : KeyEdge) : MonOut :=
  let nk := normalize_key e.key
  if e.keystate = 1 ∧ cfg.shortcut_pause = some nk ∧ s.paused = false then
    if cfg.force_disable_qemu = true ∧ liveQemu = true then
      { state := s, events := [], emissions := [], decisions := [] }
    else
      { state := { s with paused := true, forced_pause := false,
                          grabbed_by_app := false, global_keyboard_grabbed := false },
        events := [Event.inject_down_pause nk, Event.pause_activated nk],
        emissions := [], decisions := [] }
  else if e.keystate = 1 ∧ cfg.shortcut_continue = some nk ∧ s.paused = true then
    if cfg.force_disable_qemu = true ∧ liveQemu = true then
      { state := s, events := [Event.grab_failed_qemu_active],
        emissions := [], decisions := [] }
    else if liveQemu then
      { state := { s with paused := false, forced_pause := false },
        events := [Event.grab_failed_qemu_active],
        emissions := [], decisions := [] }
    else
      { state := { s with paused := false, forced_pause := false,
                          grabbed_by_app := true, global_keyboard_grabbed := true },
        events := [Event.grab_enabled, Event.continue_activated nk],
        emissions := [], decisions := [] }
  else if s.paused = true then
    { state := s,
      events :=
        if cfg.force_disable_qemu = true ∧ s.qemu_active = true then []
        else if e.keystate = 1 then [Event.inject_down_pause nk]
        else if e.keystate = 0 then [Event.inject_up_pause nk]
        else [],
      emissions := [], decisions := [] }
  else
    let fo := filterStep cfg emitFail s.filter e
    { state := { s with filter := fo.state },
      events := fo.events, emissions := fo.emissions, decisions := fo.decisions }

/-- manual_pause_action from the source: flips the pause flags and
clears the reported global_keyboard_grabbed flag.  It runs outside the
monitor thread and has no access to the device handle, so it performs
no ungrab: grabbed_by_app is untouched. -/
def manual_pause_action (s : MonState) : MonState × List Event :=
  if s.paused = false then
    ({ s with paused := true, forced_pause := false, global_keyboard_grabbed := false },
     [Event.manual_pause])
  else (s, [])

/-- The per-iteration grab reconciliation at the top of the monitor
loop body: ungrab while _qemu_active, re-grab only when not paused and
not grabbed (device calls modelled as succeeding). -/
def grab_reconcile (s : MonState) : MonState :=
  if s.qemu_active then
    if s.grabbed_by_app then
      { s with grabbed_by_app := false, global_keyboard_grabbed := false }
    else s
  else
    if s.paused = false ∧ s.grabbed_by_app = false then
      { s with grabbed_by_app := true, global_keyboard_grabbed := true }
    else s

/-- The loop guard of repeat_thread_func: the task keeps synthesizing
press+release pairs as long as its stop_event is not set.  The loop
consults only the stop_event, never the paused flag, so a running task
emits regardless of the pause state. -/
def repeat_thread_emits (s : MonState) (key : Key) : Bool :=
  s.filter.repeat_threads key

/-- Fold the bounce check over a trace of edges, keeping the state. -/
def runFilterState (cfg : Config) (emitFail : Bool) : FilterState → List KeyEdge → FilterState
  | s, [] => s
  | s, e :: rest => runFilterState cfg emitFail (filterStep cfg emitFail s e).state rest

/-- The decisions produced over a trace, in order. -/
def runDecisions (cfg : Config) (emitFail : Bool) : FilterState → List KeyEdge → List FilterDecision
  | _, [] => []
  | s, e :: rest =>
      (filterStep cfg emitFail s e).decisions
        ++ runDecisions cfg emitFail (filterStep cfg emitFail s e).state rest

/-- The synthetic emissions produced over a trace, in order. -/
def runEmissions (cfg : Config) (emitFail : Bool) : FilterState → List KeyEdge → List Emission
  | _, [] => []
  | s, e :: rest =>
      (filterStep cfg emitFail s e).emissions
        ++ runEmissions cfg emitFail (filterStep cfg emitFail s e).state rest

/-- Fold the full monitor-loop edge iteration over a trace. -/
def runMonState (cfg : Config) (liveQemu emitFail : Bool) : MonState → List KeyEdge → MonState
  | s, [] => s
  | s, e :: rest =>
      runMonState cfg liveQemu emitFail (processEdge cfg liveQemu emitFail s e).state rest

/-- The timestamps of Down edges for key k accepted while processing a
single edge from state s. -/
def stepAcceptedDown (cfg : Config) (s : FilterState) (e : KeyEdge) (k : Key) : List Time :=
  (filterStep cfg false s e).decisions.filterMap fun d =>
    match d with
    | FilterDecision.accept_down k' t => if k' = k then some t else none
    | _ => none

/-- The timestamps of all Down edges for key k accepted along a trace
started in state s, in order. -/
def acceptedDownsFrom (cfg : Config) (k : Key) : FilterState → List KeyEdge → List Time
  | _, [] => []
  | s, e :: rest =>
      stepAcceptedDown cfg s e k
        ++ acceptedDownsFrom cfg k (filterStep cfg false s e).state rest

/-- Number of synthetic presses for key k in an emission list. -/
def pressCount (k : Key) (l : List Emission) : Nat :=
  l.countP fun em => decide (em.1 = k) && em.2.1

/-- Number of synthetic releases for key k in an emission list. -/
def relCount (k : Key) (l : List Emission) : Nat :=
  l.countP fun em => decide (em.1 = k) && !em.2.1

/-- The injection-error events (inject_down_error / inject_up_error). -/
def isInjectError : Event → Bool
  | Event.inject_down_error _ => true
  | Event.inject_up_error _ => true
  | _ => false

/-- Empty dictionaries: the process-start state of the filter. -/
def initFilterState : FilterState :=
  { last_press_time_per_key := fun _ => none,
    last_release_time_per_key := fun _ => none,
    keys_were_down_blocked := fun _ => false,
    last_valid_down_time_per_key := fun _ => none,
    valid_keys := fun _ => none,
    first_event_down_per_key := fun _ => false,
    repeat_threads := fun _ => false }

/-- Monitor state right after a successful initial grab: active, not
forced, QEMU inactive, device grabbed. -/
def initMonState : MonState :=
  { paused := false, forced_pause := false, qemu_active := false,
    grabbed_by_app := true, global_keyboard_grabbed := true,
    filter := initFilterState }

/-- AfterPress configuration with global threshold 50 ms and no
per-key overrides (the scenario of the spec). -/
def cfgDown : Config :=
  { bounce_mode := BounceMode.down, bounce_time := 50,
    custom_thresholds := fun _ => none,
    shortcut_pause := none, shortcut_continue := none,
    force_disable_qemu := false }

/-- AfterRelease configuration with global threshold 100 ms and no
per-key overrides (the scenario of the spec). -/
def cfgUp : Config :=
  { bounce_mode := BounceMode.up, bounce_time := 100,
    custom_thresholds := fun _ => none,
    shortcut_pause := none, shortcut_continue := none,
    force_disable_qemu := false }

/-- cfgDown with KEY_F9 configured as the pause shortcut. -/
def cfgPause : Config :=
  { cfgDown with shortcut_pause := some ("KEY_F9") }

/-- The AfterPress scenario trace: KEY_A pressed at t = 0, 20 and
80 ms. -/
def trace8 : List KeyEdge :=
  [{ key := "KEY_A", keystate := 1, time := 0 },
   { key := "KEY_A", keystate := 1, time := 20 },
   { key := "KEY_A", keystate := 1, time := 80 }]

/-- A paused monitor state (entered through the pause shortcut, which
did release the grab). -/
def pausedMonState : MonState :=
  { paused := true, forced_pause := false, qemu_active := false,
    grabbed_by_app := false, global_keyboard_grabbed := false,
    filter := initFilterState }

/-- A monitor state that is paused while the device is still actually
grabbed (exactly what manual_pause_action produces from initMonState). -/
def pausedGrabbedMonState : MonState :=
  { paused := true, forced_pause := false, qemu_active := false,
    grabbed_by_app := true, global_keyboard_grabbed := false,
    filter := initFilterState }

/-- KEY_A is pressed and held (repeat task started), then the pause
shortcut KEY_F9 is pressed. -/
def traceC2 : List KeyEdge :=
  [{ key := "KEY_A", keystate := 1, time := 0 },
   { key := "KEY_F9", keystate := 1, time := 100 }]

/-- KEY_A: accepted Down at 0, bounce Down at 20 (suppressed), Up at
30 while the accepted press of t = 0 is still outstanding. -/
def traceC5 : List KeyEdge :=
  [{ key := "KEY_A", keystate := 1, time := 0 },
   { key := "KEY_A", keystate := 1, time := 20 },
   { key := "KEY_A", keystate := 0, time := 30 }]

/-- In AfterRelease mode: the first Down of KEY_A at t = 0 is
suppressed, so its Up at t = 10 is swallowed. -/
def traceC7 : List KeyEdge :=
  [{ key := "KEY_A", keystate := 1, time := 0 }]

-- ------------------------------------------------------------------
-- Helper lemmas
-- ------------------------------------------------------------------

@[simp]
theorem upd_self {α : Type} (f : Key → α) (k : Key) (v : α) : upd f k v k = v := by
  simp [upd]

theorem upd_ne {α : Type} (f : Key → α) {k k' : Key} (h : k' ≠ k) (v : α) :
    upd f k v k' = f k' := by
  simp [upd, h]

@[simp]
theorem start_repeat_lvd (s : FilterState) (k : Key) :
    (start_repeat s k).last_valid_down_time_per_key = s.last_valid_down_time_per_key := by
  unfold start_repeat; split <;> rfl

@[simp]
theorem start_repeat_valid (s : FilterState) (k : Key) :
    (start_repeat s k).valid_keys = s.valid_keys := by
  unfold start_repeat; split <;> rfl

@[simp]
theorem start_repeat_blocked (s : FilterState) (k : Key) :
    (start_repeat s k).keys_were_down_blocked = s.keys_were_down_blocked := by
  unfold start_repeat; split <;> rfl

@[simp]
theorem start_repeat_first (s : FilterState) (k : Key) :
    (start_repeat s k).first_event_down_per_key = s.first_event_down_per_key := by
  unfold start_repeat; split <;> rfl

@[simp]
theorem start_repeat_lastrel (s : FilterState) (k : Key) :
    (start_repeat s k).last_release_time_per_key = s.last_release_time_per_key := by
  unfold start_repeat; split <;> rfl

@[simp]
theorem stop_repeat_lvd (s : FilterState) (k : Key) :
    (stop_repeat s k).last_valid_down_time_per_key = s.last_valid_down_time_per_key := rfl

@[simp]
theorem stop_repeat_valid (s : FilterState) (k : Key) :
    (stop_repeat s k).valid_keys = s.valid_keys := rfl

@[simp]
theorem stop_repeat_blocked (s : FilterState) (k : Key) :
    (stop_repeat s k).keys_were_down_blocked = s.keys_were_down_blocked := rfl

@[simp]
theorem stop_repeat_lastrel (s : FilterState) (k : Key) :
    (stop_repeat s k).last_release_time_per_key = s.last_release_time_per_key := rfl

@[simp]
theorem acceptedDownsFrom_nil (cfg : Config) (k : Key) (s : FilterState) :
    acceptedDownsFrom cfg k s [] = [] := rfl

@[simp]
theorem acceptedDownsFrom_cons (cfg : Config) (k : Key) (s : FilterState)
    (e : KeyEdge) (rest : List KeyEdge) :
    acceptedDownsFrom cfg k s (e :: rest)
      = stepAcceptedDown cfg s e k
        ++ acceptedDownsFrom cfg k (filterStep cfg false s e).state rest := rfl

@[simp]
theorem runEmissions_nil (cfg : Config) (ef : Bool) (s : FilterState) :
    runEmissions cfg ef s [] = [] := rfl

@[simp]
theorem runEmissions_cons (cfg : Config) (ef : Bool) (s : FilterState)
    (e : KeyEdge) (rest : List KeyEdge) :
    runEmissions cfg ef s (e :: rest)
      = (filterStep cfg ef s e).emissions
        ++ runEmissions cfg ef (filterStep cfg ef s e).state rest := rfl

@[simp]
theorem runFilterState_nil (cfg : Config) (ef : Bool) (s : FilterState) :
    runFilterState cfg ef s [] = s := rfl

@[simp]
theorem runFilterState_cons (cfg : Config) (ef : Bool) (s : FilterState)
    (e : KeyEdge) (rest : List KeyEdge) :
    runFilterState cfg ef s (e :: rest)
      = runFilterState cfg ef (filterStep cfg ef s e).state rest := rfl

-- ------------------------------------------------------------------
-- C8
-- ------------------------------------------------------------------

/-- Claim C8: with global threshold 50 ms and no override, in
AfterPress mode the Down sequence at t = 0, 20, 80 ms yields accept,
suppress (gap 20 < 50), accept (gap 80 from the accepted press at 0),
and exactly two synthetic presses are emitted, at t = 0 and t = 80. -/
theorem claim_C8 :
    runDecisions cfgDown false initFilterState trace8 =
      [FilterDecision.accept_down ("KEY_A") 0,
       FilterDecision.suppress_down ("KEY_A") 20,
       FilterDecision.accept_down ("KEY_A") 80]
    ∧ runEmissions cfgDown false initFilterState trace8 =
      [(("KEY_A" : Key), true, (0 : Time)), (("KEY_A" : Key), true, (80 : Time))] := by
  decide

-- ------------------------------------------------------------------
-- C3
-- ------------------------------------------------------------------

/-- Claim C3 (amended): in AfterRelease mode, a Down for a key with no
prior accepted release reads the missing last-release time as 0, so
the gap is the Down's own timestamp: the Down is accepted exactly when
its timestamp is at least the effective threshold (always true for
realistic wall-clock timestamps), not unconditionally. -/
theorem claim_C3 (cfg : Config) (ef : Bool) (s : FilterState) (e : KeyEdge)
    (hm : cfg.bounce_mode = BounceMode.up) (hks : e.keystate = 1)
    (hrel : s.last_release_time_per_key (normalize_key e.key) = none) :
    (filterStep cfg ef s e).decisions =
      (if e.time < threshold_used cfg (normalize_key e.key)
       then [FilterDecision.suppress_down (normalize_key e.key) e.time]
       else [FilterDecision.accept_down (normalize_key e.key) e.time]) := by
  unfold filterStep
  simp only [hm, hks, hrel, if_true, reduceIte, Option.getD_none, sub_zero]
  split <;> simp

/-- Witness for C3: a first Down at t = 150 ms with threshold 100 ms
is accepted. -/
theorem claim_C3_witness :
    (filterStep cfgUp false initFilterState
        { key := "KEY_A", keystate := 1, time := 150 }).decisions
      = [FilterDecision.accept_down (normalize_key ("KEY_A")) 150] := by
  rw [claim_C3 cfgUp false initFilterState
        { key := "KEY_A", keystate := 1, time := 150 } rfl rfl rfl]
  decide

/-- Counterexample to C3 as stated: in AfterRelease mode with
threshold 100 ms, the very first Down of KEY_A at t = 0 is suppressed
(elapsed = 0 - 0 = 0 < 100), not accepted: the missing release is the
sentinel 0.0, not an infinite gap. -/
theorem claim_C3_counterexample :
    (filterStep cfgUp false initFilterState
        { key := "KEY_A", keystate := 1, time := 0 }).decisions
      = [FilterDecision.suppress_down ("KEY_A") 0] := by
  decide

-- ------------------------------------------------------------------
-- C4
-- ------------------------------------------------------------------

/-- Claim C4 (amended): in AfterRelease mode a suppressed Down cancels
the key's repeat task synchronously, but in AfterPress mode every Down
edge first (re)starts the repeat task (for non-modifier keys) before
the bounce check, and a suppressed Down does not cancel it, so after a
suppressed Down in AfterPress mode the repeat task is running. -/
theorem claim_C4 :
    (∀ (cfg : Config) (ef : Bool) (s : FilterState) (e : KeyEdge),
      cfg.bounce_mode = BounceMode.up → e.keystate = 1 →
      e.time - (s.last_release_time_per_key (normalize_key e.key)).getD 0
          < threshold_used cfg (normalize_key e.key) →
      (filterStep cfg ef s e).state.repeat_threads (normalize_key e.key) = false)
    ∧ (∀ (cfg : Config) (ef : Bool) (s : FilterState) (e : KeyEdge),
      cfg.bounce_mode = BounceMode.down → e.keystate = 1 →
      (filterStep cfg ef s e).state.repeat_threads (normalize_key e.key)
        = (if is_modifier (normalize_key e.key)
           then s.repeat_threads (normalize_key e.key) else true)) := by
  constructor
  · intro cfg ef s e hm hks hgap
    unfold filterStep
    simp only [hm, hks, if_true, reduceIte, if_pos hgap]
    simp [stop_repeat]
  · intro cfg ef s e hm hks
    unfold filterStep
    simp only [hm, hks, if_true, reduceIte]
    split
    · rename_i hup
      exact absurd hup (by decide)
    · split <;>
        · by_cases hmod : is_modifier (normalize_key e.key) = true <;>
            simp [start_repeat, upd, hmod]

/-- Witness for C4: both conjuncts instantiated on concrete inputs:
a first Down of KEY_A at t = 0 in AfterRelease mode (suppressed, gap
0 < 100) leaves no repeat task, and a Down of KEY_A in AfterPress mode
leaves the repeat task running (KEY_A is not a modifier). -/
theorem claim_C4_witness :
    (filterStep cfgUp false initFilterState
        { key := "KEY_A", keystate := 1, time := 0 }).state.repeat_threads
        (normalize_key ("KEY_A")) = false
    ∧ (filterStep cfgDown false initFilterState
        { key := "KEY_A", keystate := 1, time := 0 }).state.repeat_threads
        (normalize_key ("KEY_A"))
      = (if is_modifier (normalize_key ("KEY_A"))
         then initFilterState.repeat_threads (normalize_key ("KEY_A")) else true) :=
  ⟨claim_C4.1 cfgUp false initFilterState
      { key := "KEY_A", keystate := 1, time := 0 } rfl rfl (by decide),
   claim_C4.2 cfgDown false initFilterState
      { key := "KEY_A", keystate := 1, time := 0 } rfl rfl⟩

/-- Counterexample to C4 as stated: in AfterPress mode, after the
accepted Down of KEY_A at t = 0 and the suppressed Down at t = 20
(gap 20 < 50), the repeat task for KEY_A is still running: the
suppressed Down did not cancel it (start_repeat even runs before the
bounce check). -/
theorem claim_C4_counterexample :
    runDecisions cfgDown false initFilterState (trace8.take 2)
      = [FilterDecision.accept_down ("KEY_A") 0,
         FilterDecision.suppress_down ("KEY_A") 20]
    ∧ (runFilterState cfgDown false initFilterState (trace8.take 2)).repeat_threads
        ("KEY_A") = true := by
  decide

-- ------------------------------------------------------------------
-- C10
-- ------------------------------------------------------------------

/-- Claim C10: in AfterRelease mode, an Up for a key that never had a
Down processed (blocked flag unset) is accepted: a synthetic release
is emitted and the last accepted release is set to the Up's timestamp;
a first Down arriving within the effective threshold after that stray
Up is then suppressed. -/
theorem claim_C10 (cfg : Config) (s : FilterState) (k : Key) (t t' : Time)
    (hm : cfg.bounce_mode = BounceMode.up)
    (hblocked : s.keys_were_down_blocked (normalize_key k) = false)
    (hgap : t' - t < threshold_used cfg (normalize_key k)) :
    (filterStep cfg false s { key := k, keystate := 0, time := t }).decisions
      = [FilterDecision.accept_up (normalize_key k) t]
    ∧ (filterStep cfg false s { key := k, keystate := 0, time := t }).emissions
      = [(normalize_key k, false, t)]
    ∧ (filterStep cfg false s
        { key := k, keystate := 0, time := t }).state.last_release_time_per_key
        (normalize_key k) = some t
    ∧ (filterStep cfg false
        (filterStep cfg false s { key := k, keystate := 0, time := t }).state
        { key := k, keystate := 1, time := t' }).decisions
      = [FilterDecision.suppress_down (normalize_key k) t'] := by
  have hstep :
      (filterStep cfg false s { key := k, keystate := 0, time := t }).state.last_release_time_per_key
        (normalize_key k) = some t := by
    unfold filterStep
    simp [hm, hblocked, stop_repeat]
  refine ⟨?_, ?_, hstep, ?_⟩
  · unfold filterStep
    simp [hm, hblocked, stop_repeat]
  · unfold filterStep
    simp [hm, hblocked, stop_repeat]
  · generalize hS : (filterStep cfg false s { key := k, keystate := 0, time := t }).state = S
    rw [hS] at hstep
    unfold filterStep
    simp only [hm, hstep, if_true, reduceIte, Option.getD_some]
    simp [if_pos hgap]

/-- Witness for C10: with threshold 100 ms, a stray Up of KEY_A at
t = 1000 is accepted and recorded, and the first real Down at t = 1040
(gap 40 < 100) is suppressed. -/
theorem claim_C10_witness :
    (filterStep cfgUp false initFilterState
        { key := "KEY_A", keystate := 0, time := 1000 }).decisions
      = [FilterDecision.accept_up (normalize_key ("KEY_A")) 1000]
    ∧ (filterStep cfgUp false initFilterState
        { key := "KEY_A", keystate := 0, time := 1000 }).emissions
      = [(normalize_key ("KEY_A"), false, 1000)]
    ∧ (filterStep cfgUp false initFilterState
        { key := "KEY_A", keystate := 0, time := 1000 }).state.last_release_time_per_key
        (normalize_key ("KEY_A")) = some 1000
    ∧ (filterStep cfgUp false
        (filterStep cfgUp false initFilterState
          { key := "KEY_A", keystate := 0, time := 1000 }).state
        { key := "KEY_A", keystate := 1, time := 1040 }).decisions
      = [FilterDecision.suppress_down (normalize_key ("KEY_A")) 1040] :=
  claim_C10 cfgUp initFilterState ("KEY_A") 1000 1040 rfl rfl (by decide)

-- ------------------------------------------------------------------
-- C2
-- ------------------------------------------------------------------

/-- Claim C2 (amended): while paused (including forced pause, which
always implies paused), processing any input edge produces no filter
decision — in particular no Accept — and no synthetic emission from
the monitor loop; repeat tasks for keys that were held when pause was
entered are however not cancelled and keep emitting (see the
counterexample). -/
theorem claim_C2 (cfg : Config) (lq ef : Bool) (s : MonState) (e : KeyEdge)
    (hp : s.paused = true) :
    (processEdge cfg lq ef s e).decisions = []
    ∧ (processEdge cfg lq ef s e).emissions = [] := by
  unfold processEdge
  simp only [hp]
  repeat' split
  all_goals simp_all

/-- Witness for C2: a Down of KEY_A processed in a paused state yields
no decision and no emission. -/
theorem claim_C2_witness :
    (processEdge cfgDown false false pausedMonState
        { key := "KEY_A", keystate := 1, time := 0 }).decisions = []
    ∧ (processEdge cfgDown false false pausedMonState
        { key := "KEY_A", keystate := 1, time := 0 }).emissions = [] :=
  claim_C2 cfgDown false false pausedMonState
    { key := "KEY_A", keystate := 1, time := 0 } rfl

/-- Counterexample to C2 as stated: KEY_A is pressed (accepted, its
repeat task starts), then the pause shortcut KEY_F9 is pressed.  The
resulting state is Paused, yet the repeat task for KEY_A is still
running and its loop (repeat_thread_func) emits synthetic press and
release pairs whenever its stop_event is unset — pause entry never
cancels it — so synthetic emission does occur while paused. -/
theorem claim_C2_counterexample :
    (runMonState cfgPause false false initMonState traceC2).paused = true
    ∧ repeat_thread_emits (runMonState cfgPause false false initMonState traceC2)
        ("KEY_A") = true := by
  decide

-- ------------------------------------------------------------------
-- C6
-- ------------------------------------------------------------------

/-- Claim C6 (amended): entering Paused via the pause shortcut key
does release exclusive capture (grabbed_by_app and the reported flag
both become false), but a manual pause request only clears the
reported global_keyboard_grabbed flag and leaves the actual grab
(grabbed_by_app) untouched, and the per-iteration reconciliation never
ungrabs while paused with virtualization inactive — so actual capture
is retained throughout a manual pause. -/
theorem claim_C6 :
    (∀ (cfg : Config) (lq ef : Bool) (s : MonState) (e : KeyEdge),
      s.paused = false → e.keystate = 1 →
      cfg.shortcut_pause = some (normalize_key e.key) →
      ¬(cfg.force_disable_qemu = true ∧ lq = true) →
      (processEdge cfg lq ef s e).state.paused = true
      ∧ (processEdge cfg lq ef s e).state.grabbed_by_app = false
      ∧ (processEdge cfg lq ef s e).state.global_keyboard_grabbed = false)
    ∧ (∀ s : MonState, s.paused = false →
      (manual_pause_action s).1.paused = true
      ∧ (manual_pause_action s).1.global_keyboard_grabbed = false
      ∧ (manual_pause_action s).1.grabbed_by_app = s.grabbed_by_app)
    ∧ (∀ s : MonState, s.paused = true → s.qemu_active = false →
      (grab_reconcile s).grabbed_by_app = s.grabbed_by_app) := by
  refine ⟨?_, ?_, ?_⟩
  · intro cfg lq ef s e hp hks hsp hforce
    unfold processEdge
    rw [if_pos ⟨hks, hsp, hp⟩, if_neg hforce]
    simp
  · intro s hp
    unfold manual_pause_action
    rw [if_pos hp]
    simp
  · intro s hp hq
    unfold grab_reconcile
    rw [if_neg (by simp [hq] : ¬s.qemu_active = true),
        if_neg (by simp [hp] : ¬(s.paused = false ∧ s.grabbed_by_app = false))]

/-- Witness for C6: the three conjuncts instantiated: the pause
shortcut KEY_F9 pressed in the active initial state, a manual pause
from the active initial state, and reconciliation of a paused
still-grabbed state. -/
theorem claim_C6_witness :
    ((processEdge cfgPause false false initMonState
        { key := "KEY_F9", keystate := 1, time := 0 }).state.paused = true
      ∧ (processEdge cfgPause false false initMonState
        { key := "KEY_F9", keystate := 1, time := 0 }).state.grabbed_by_app = false
      ∧ (processEdge cfgPause false false initMonState
        { key := "KEY_F9", keystate := 1, time := 0 }).state.global_keyboard_grabbed = false)
    ∧ ((manual_pause_action initMonState).1.paused = true
      ∧ (manual_pause_action initMonState).1.global_keyboard_grabbed = false
      ∧ (manual_pause_action initMonState).1.grabbed_by_app = initMonState.grabbed_by_app)
    ∧ (grab_reconcile pausedGrabbedMonState).grabbed_by_app
        = pausedGrabbedMonState.grabbed_by_app :=
  ⟨claim_C6.1 cfgPause false false initMonState
      { key := "KEY_F9", keystate := 1, time := 0 } rfl rfl (by decide) (by decide),
   claim_C6.2.1 initMonState rfl,
   claim_C6.2.2 pausedGrabbedMonState rfl rfl⟩

/-- Counterexample to C6 as stated: a manual pause request from the
active, grabbed state enters Paused but leaves grabbed_by_app true —
exclusive capture is not released — and the grab reconciliation of the
monitor loop keeps it grabbed on subsequent iterations, violating the
invariant that the device is grabbed only while not paused. -/
theorem claim_C6_counterexample :
    (manual_pause_action initMonState).1.paused = true
    ∧ (manual_pause_action initMonState).1.grabbed_by_app = true
    ∧ (grab_reconcile (manual_pause_action initMonState).1).grabbed_by_app = true := by
  decide

-- ------------------------------------------------------------------
-- C7
-- ------------------------------------------------------------------

/-- Claim C7 (amended): every Down edge routed through the filter
pushes at least one event onto the queue, and so does every accepted
Up edge; an Up edge swallowed because its matching Down was suppressed
however pushes no event at all (see the counterexample). -/
theorem claim_C7 :
    (∀ (cfg : Config) (ef : Bool) (s : FilterState) (e : KeyEdge),
      e.keystate = 1 → (filterStep cfg ef s e).events ≠ [])
    ∧ (∀ (cfg : Config) (ef : Bool) (s : FilterState) (e : KeyEdge),
      e.keystate = 0 →
      (cfg.bounce_mode = BounceMode.up →
        s.keys_were_down_blocked (normalize_key e.key) = false →
        (filterStep cfg ef s e).events ≠ [])
      ∧ (cfg.bounce_mode = BounceMode.down →
        (s.valid_keys (normalize_key e.key)).isSome = true →
        (filterStep cfg ef s e).events ≠ [])) := by
  constructor
  · intro cfg ef s e hks
    unfold filterStep
    simp only [hks, if_true, reduceIte]
    split <;> split <;> simp
  · intro cfg ef s e hks
    constructor
    · intro hm hbl
      unfold filterStep
      simp [hm, hks, hbl, stop_repeat]
    · intro hm hvk
      unfold filterStep
      simp [hm, hks, hvk, stop_repeat, List.append_eq_nil]

/-- Witness for C7: an accepted first Down of KEY_A pushes events, and
the accepted Up of KEY_A (its accepted press outstanding) pushes
events. -/
theorem claim_C7_witness :
    (filterStep cfgDown false initFilterState
        { key := "KEY_A", keystate := 1, time := 0 }).events ≠ []
    ∧ (filterStep cfgDown false
        (runFilterState cfgDown false initFilterState
          [{ key := "KEY_A", keystate := 1, time := 0 }])
        { key := "KEY_A", keystate := 0, time := 30 }).events ≠ [] :=
  ⟨claim_C7.1 cfgDown false initFilterState
      { key := "KEY_A", keystate := 1, time := 0 } rfl,
   (claim_C7.2 cfgDown false
      (runFilterState cfgDown false initFilterState
        [{ key := "KEY_A", keystate := 1, time := 0 }])
      { key := "KEY_A", keystate := 0, time := 30 } rfl).2 rfl (by decide)⟩

/-- Counterexample to C7 as stated: in AfterRelease mode the first
Down of KEY_A at t = 0 is suppressed (gap 0 < 100) and flags the key
blocked; its Up at t = 10 is then swallowed — it is classified
suppressed but pushes no event whatsoever onto the queue: the
swallowed Up is dropped silently. -/
theorem claim_C7_counterexample :
    (filterStep cfgUp false (runFilterState cfgUp false initFilterState traceC7)
        { key := "KEY_A", keystate := 0, time := 10 }).events = []
    ∧ (filterStep cfgUp false (runFilterState cfgUp false initFilterState traceC7)
        { key := "KEY_A", keystate := 0, time := 10 }).decisions
      = [FilterDecision.suppress_up ("KEY_A") 10] := by
  decide

-- ------------------------------------------------------------------
-- C9
-- ------------------------------------------------------------------

/-- Claim C9: an emission failure of the synthetic-output sink changes
neither the resulting filter state nor the decision; it produces no
emission, queues exactly one injection-error event per emission the
successful run would have produced, leaves all other queued events
unchanged, and the whole monitor run over any subsequent trace is
unaffected (the error never aborts processing). -/
theorem claim_C9 :
    (∀ (cfg : Config) (s : FilterState) (e : KeyEdge),
      (filterStep cfg true s e).state = (filterStep cfg false s e).state
      ∧ (filterStep cfg true s e).decisions = (filterStep cfg false s e).decisions
      ∧ (filterStep cfg true s e).emissions = []
      ∧ (filterStep cfg true s e).events.countP isInjectError
          = (filterStep cfg false s e).emissions.length
      ∧ (filterStep cfg true s e).events.filter (fun ev => !isInjectError ev)
          = (filterStep cfg false s e).events)
    ∧ (∀ (cfg : Config) (s : FilterState) (trace : List KeyEdge),
      runFilterState cfg true s trace = runFilterState cfg false s trace) := by
  have hstep : ∀ (cfg : Config) (s : FilterState) (e : KeyEdge),
      (filterStep cfg true s e).state = (filterStep cfg false s e).state := by
    intro cfg s e
    simp only [filterStep]
    repeat' split
    all_goals rfl
  constructor
  · intro cfg s e
    refine ⟨hstep cfg s e, ?_⟩
    simp only [filterStep]
    repeat' split
    all_goals simp_all [isInjectError, List.countP_cons]
  · intro cfg s trace
    induction trace generalizing s with
    | nil => rfl
    | cons e rest ih =>
      rw [runFilterState_cons, runFilterState_cons, hstep, ih]

-- ------------------------------------------------------------------
-- C1
-- ------------------------------------------------------------------

/-- The two detection modes are distinct (used to discharge the
mode branch when AfterPress is selected). -/
theorem down_ne_up : (BounceMode.down = BounceMode.up) = False := by
  simp

/-- In AfterPress mode, last_valid_down_time_per_key is set to the
edge time exactly when the edge is an accepted Down of that key, and
untouched otherwise. -/
theorem filterStep_lvd (cfg : Config) (ef : Bool) (s : FilterState) (e : KeyEdge) (k : Key)
    (hm : cfg.bounce_mode = BounceMode.down) :
    (filterStep cfg ef s e).state.last_valid_down_time_per_key k =
      (if e.keystate = 1 ∧ k = normalize_key e.key
          ∧ down_accepts cfg s (normalize_key e.key) e.time = true
       then some e.time
       else s.last_valid_down_time_per_key k) := by
  simp only [filterStep, hm, down_ne_up, if_false]
  by_cases hks : e.keystate = 1
  · simp only [hks, reduceIte, if_true]
    by_cases hacc : down_accepts cfg s (normalize_key e.key) e.time = true
    · by_cases hk : k = normalize_key e.key <;>
        simp [hacc, hk, upd]
    · simp [hacc]
  · simp only [hks, reduceIte, if_false]
    by_cases hks2 : e.keystate = 2
    · simp [hks2, hks]
    · simp only [hks2, reduceIte, if_false]
      split <;> simp [stop_repeat, hks]

/-- The accepted-down timestamps contributed by a single step, in
AfterPress mode. -/
theorem stepAcceptedDown_char (cfg : Config) (s : FilterState) (e : KeyEdge) (k : Key)
    (hm : cfg.bounce_mode = BounceMode.down) :
    stepAcceptedDown cfg s e k =
      (if e.keystate = 1 ∧ k = normalize_key e.key
          ∧ down_accepts cfg s (normalize_key e.key) e.time = true
       then [e.time] else []) := by
  simp only [stepAcceptedDown, filterStep, hm, down_ne_up, if_false]
  by_cases hks : e.keystate = 1
  · simp only [hks, reduceIte, if_true]
    by_cases hacc : down_accepts cfg s (normalize_key e.key) e.time = true
    · by_cases hk : k = normalize_key e.key
      · simp [hacc, hk, List.filterMap]
      · simp [hacc, hk, Ne.symm hk, List.filterMap]
    · simp [hacc, List.filterMap]
  · simp only [hks, reduceIte, if_false]
    by_cases hks2 : e.keystate = 2
    · simp [hks2, hks, List.filterMap]
    · simp only [hks2, reduceIte, if_false]
      split <;> simp [hks, List.filterMap]

/-- Every accepted-down timestamp of a single step is the time of the
processed edge (any mode). -/
theorem stepAcceptedDown_time_mem (cfg : Config) (s : FilterState) (e : KeyEdge)
    (k : Key) (t : Time) (ht : t ∈ stepAcceptedDown cfg s e k) : t = e.time := by
  simp only [stepAcceptedDown, filterStep] at ht
  repeat' split at ht
  all_goals simp_all [List.filterMap]
  all_goals (split at ht <;> simp_all)

/-- Every accepted-down timestamp along a trace is the time of some
edge of the trace. -/
theorem mem_acceptedDownsFrom_time (cfg : Config) (k : Key) :
    ∀ (trace : List KeyEdge) (s : FilterState) (t : Time),
      t ∈ acceptedDownsFrom cfg k s trace → ∃ e ∈ trace, t = e.time := by
  intro trace
  induction trace with
  | nil => intro s t ht; simp at ht
  | cons e rest ih =>
    intro s t ht
    rw [acceptedDownsFrom_cons] at ht
    rcases List.mem_append.mp ht with h | h
    · exact ⟨e, List.mem_cons_self e rest, stepAcceptedDown_time_mem cfg s e k t h⟩
    · obtain ⟨e', he', het⟩ := ih _ t h
      exact ⟨e', List.mem_cons_of_mem e he', het⟩

/-- Two members of a pairwise-related list are equal or related one
way or the other. -/
theorem pairwise_mem_rel {α : Type} {R : α → α → Prop} :
    ∀ {l : List α}, List.Pairwise R l → ∀ {a b : α}, a ∈ l → b ∈ l →
      a = b ∨ R a b ∨ R b a := by
  intro l hl
  induction hl with
  | nil => intro a b ha _; exact absurd ha (List.not_mem_nil a)
  | cons hx _ ih =>
    intro a b ha hb
    rcases List.mem_cons.mp ha with rfl | ha'
    · rcases List.mem_cons.mp hb with rfl | hb'
      · exact Or.inl rfl
      · exact Or.inr (Or.inl (hx b hb'))
    · rcases List.mem_cons.mp hb with rfl | hb'
      · exact Or.inr (Or.inr (hx a ha'))
      · exact ih ha' hb'

/-- Core separation invariant of AfterPress mode: along a trace with
non-decreasing timestamps, the pending last-accepted-down time
followed by all accepted-down times of key k form a list in which each
earlier entry is at least one effective threshold before each later
entry. -/
theorem acceptedDowns_pairwise (cfg : Config) (k : Key)
    (hm : cfg.bounce_mode = BounceMode.down) :
    ∀ (trace : List KeyEdge) (s : FilterState),
      List.Pairwise (fun a b : KeyEdge => a.time ≤ b.time) trace →
      (∀ t0, s.last_valid_down_time_per_key k = some t0 → ∀ e ∈ trace, t0 ≤ e.time) →
      List.Pairwise (fun a b : Time => a + threshold_used cfg k ≤ b ∧ a ≤ b)
        ((s.last_valid_down_time_per_key k).toList ++ acceptedDownsFrom cfg k s trace) := by
  intro trace
  induction trace with
  | nil =>
    intro s _ _
    rw [acceptedDownsFrom_nil]
    cases s.last_valid_down_time_per_key k <;> simp
  | cons e rest ih =>
    intro s hsort h0
    have hhead := (List.pairwise_cons.mp hsort).1
    have hsort' := (List.pairwise_cons.mp hsort).2
    rw [acceptedDownsFrom_cons, stepAcceptedDown_char cfg s e k hm]
    by_cases hc : e.keystate = 1 ∧ k = normalize_key e.key
        ∧ down_accepts cfg s (normalize_key e.key) e.time = true
    · rw [if_pos hc]
      have hlvd : (filterStep cfg false s e).state.last_valid_down_time_per_key k
          = some e.time := by
        rw [filterStep_lvd cfg false s e k hm, if_pos hc]
      have ihr := ih (filterStep cfg false s e).state hsort' ?_
      · rw [hlvd] at ihr
        simp only [Option.toList_some, List.singleton_append] at ihr
        cases hl : s.last_valid_down_time_per_key k with
        | none => simpa using ihr
        | some t0 =>
          simp only [hl, Option.toList_some, List.singleton_append, List.cons_append]
          refine List.Pairwise.cons ?_ ihr
          intro a ha
          have hk := hc.2.1
          have hacc := hc.2.2
          have hthr : threshold_used cfg k ≤ e.time - t0 := by
            unfold down_accepts at hacc
            rw [← hk, hl] at hacc
            simpa using hacc
          have ht0e : t0 ≤ e.time := h0 t0 hl e (List.mem_cons_self e rest)
          rcases List.mem_cons.mp ha with rfl | haA
          · exact ⟨by linarith, ht0e⟩
          · obtain ⟨e', he', rfl⟩ := mem_acceptedDownsFrom_time cfg k rest _ a haA
            have hee' : e.time ≤ e'.time := hhead e' he'
            exact ⟨by linarith, by linarith⟩
      · intro t0 hteq e' he'
        rw [hlvd] at hteq
        cases hteq
        exact hhead e' he'
    · rw [if_neg hc]
      have hlvd : (filterStep cfg false s e).state.last_valid_down_time_per_key k
          = s.last_valid_down_time_per_key k := by
        rw [filterStep_lvd cfg false s e k hm, if_neg hc]
      have ihr := ih (filterStep cfg false s e).state hsort' ?_
      · rw [hlvd] at ihr
        simpa using ihr
      · intro t0 hteq e' he'
        rw [hlvd] at hteq
        exact h0 t0 hteq e' (List.mem_cons_of_mem e he')

/-- Claim C1: in AfterPress mode, for any two Down edges of key k
accepted by the filter along a chronologically ordered trace, with
accepted timestamps t1 < t2, the gap t2 - t1 is at least the effective
threshold for k (custom override if present, else the global
threshold), the thresholds being fixed along the trace. -/
theorem claim_C1 (cfg : Config) (trace : List KeyEdge) (k : Key) (t1 t2 : Time)
    (hm : cfg.bounce_mode = BounceMode.down)
    (hsort : List.Pairwise (fun a b : KeyEdge => a.time ≤ b.time) trace)
    (h1 : t1 ∈ acceptedDownsFrom cfg k initFilterState trace)
    (h2 : t2 ∈ acceptedDownsFrom cfg k initFilterState trace)
    (hlt : t1 < t2) :
    threshold_used cfg k ≤ t2 - t1 := by
  have hp := acceptedDowns_pairwise cfg k hm trace initFilterState hsort
    (by intro t0 h; simp [initFilterState] at h)
  simp only [initFilterState, Option.toList_none, List.nil_append] at hp
  rcases pairwise_mem_rel hp h1 h2 with rfl | h | h
  · exact absurd hlt (lt_irrefl t1)
  · linarith [h.1]
  · linarith [h.1, h.2]

/-- Witness for C1: in the 0/20/80 ms scenario the two accepted downs
are at 0 and 80, and 80 - 0 is at least the 50 ms threshold. -/
theorem claim_C1_witness : threshold_used cfgDown ("KEY_A") ≤ 80 - 0 :=
  claim_C1 cfgDown trace8 ("KEY_A") 0 80 rfl (by decide) (by decide) (by decide)
    (by decide)

-- ------------------------------------------------------------------
-- C5
-- ------------------------------------------------------------------

/-- In AfterPress mode a step does exactly one of: emit nothing and
leave valid_keys unchanged; emit one press and record the key in
valid_keys; or emit one release — possible only when the key was in
valid_keys — and remove it. -/
theorem filterStep_down_cases (cfg : Config) (s : FilterState) (e : KeyEdge)
    (hm : cfg.bounce_mode = BounceMode.down) :
    ((filterStep cfg false s e).emissions = []
      ∧ ∀ k', (filterStep cfg false s e).state.valid_keys k' = s.valid_keys k')
    ∨ ((filterStep cfg false s e).emissions = [(normalize_key e.key, true, e.time)]
      ∧ (filterStep cfg false s e).state.valid_keys (normalize_key e.key) = some e.time
      ∧ ∀ k', k' ≠ normalize_key e.key →
          (filterStep cfg false s e).state.valid_keys k' = s.valid_keys k')
    ∨ ((filterStep cfg false s e).emissions = [(normalize_key e.key, false, e.time)]
      ∧ (s.valid_keys (normalize_key e.key)).isSome = true
      ∧ (filterStep cfg false s e).state.valid_keys (normalize_key e.key) = none
      ∧ ∀ k', k' ≠ normalize_key e.key →
          (filterStep cfg false s e).state.valid_keys k' = s.valid_keys k') := by
  by_cases hks : e.keystate = 1
  · by_cases hacc : down_accepts cfg s (normalize_key e.key) e.time = true
    · refine Or.inr (Or.inl ⟨?_, ?_, ?_⟩)
      · simp [filterStep, hm, down_ne_up, hks, hacc]
      · simp [filterStep, hm, down_ne_up, hks, hacc]
      · intro k' hk'
        simp [filterStep, hm, down_ne_up, hks, hacc, upd, hk']
    · refine Or.inl ⟨?_, ?_⟩
      · simp [filterStep, hm, down_ne_up, hks, hacc]
      · intro k'
        simp [filterStep, hm, down_ne_up, hks, hacc]
  · by_cases hks2 : e.keystate = 2
    · refine Or.inl ⟨?_, ?_⟩
      · simp [filterStep, hm, down_ne_up, hks, hks2]
      · intro k'
        simp [filterStep, hm, down_ne_up, hks, hks2]
    · by_cases hvk : (s.valid_keys (normalize_key e.key)).isSome = true
      · refine Or.inr (Or.inr ⟨?_, hvk, ?_, ?_⟩)
        · simp [filterStep, hm, down_ne_up, hks, hks2, hvk]
        · simp [filterStep, hm, down_ne_up, hks, hks2, hvk, stop_repeat]
        · intro k' hk'
          simp [filterStep, hm, down_ne_up, hks, hks2, hvk, stop_repeat, upd, hk']
      · refine Or.inl ⟨?_, ?_⟩
        · simp [filterStep, hm, down_ne_up, hks, hks2, hvk]
        · intro k'
          simp [filterStep, hm, down_ne_up, hks, hks2, hvk, stop_repeat]

/-- Balance invariant of the synthetic stream in AfterPress mode:
every prefix of the emitted stream contains at most one more release
for key k than presses, the slack being exactly an outstanding
valid_keys entry carried in from the start state. -/
theorem relCount_le_aux (cfg : Config) (k : Key)
    (hm : cfg.bounce_mode = BounceMode.down) :
    ∀ (trace : List KeyEdge) (s : FilterState) (n : ℕ),
      relCount k ((runEmissions cfg false s trace).take n)
        ≤ pressCount k ((runEmissions cfg false s trace).take n)
          + (if (s.valid_keys k).isSome then 1 else 0) := by
  intro trace
  induction trace with
  | nil =>
    intro s n
    simp [relCount, pressCount]
  | cons e rest ih =>
    intro s n
    rw [runEmissions_cons]
    rcases filterStep_down_cases cfg s e hm with
      ⟨hem, hvk⟩ | ⟨hem, hvk, hother⟩ | ⟨hem, hsome, hvk, hother⟩
    · rw [hem, List.nil_append]
      have hih := ih (filterStep cfg false s e).state n
      rwa [hvk k] at hih
    · rw [hem, List.singleton_append]
      cases n with
      | zero => simp [relCount, pressCount]
      | succ m =>
        rw [List.take_succ_cons]
        by_cases hk : k = normalize_key e.key
        · subst hk
          have hih := ih (filterStep cfg false s e).state m
          rw [hvk] at hih
          simp only [relCount, pressCount, List.countP_cons] at hih ⊢
          simp at hih ⊢
          split <;> omega
        · have hih := ih (filterStep cfg false s e).state m
          rw [hother k hk] at hih
          have hne : normalize_key e.key ≠ k := Ne.symm hk
          simp only [relCount, pressCount, List.countP_cons] at hih ⊢
          simp [hne] at hih ⊢
          omega
    · rw [hem, List.singleton_append]
      cases n with
      | zero => simp [relCount, pressCount]
      | succ m =>
        rw [List.take_succ_cons]
        by_cases hk : k = normalize_key e.key
        · subst hk
          have hih := ih (filterStep cfg false s e).state m
          rw [hvk] at hih
          simp only [relCount, pressCount, List.countP_cons] at hih ⊢
          simp [hsome] at hih ⊢
          omega
        · have hih := ih (filterStep cfg false s e).state m
          rw [hother k hk] at hih
          have hne : normalize_key e.key ≠ k := Ne.symm hk
          simp only [relCount, pressCount, List.countP_cons] at hih ⊢
          simp [hne] at hih ⊢
          omega

/-- Claim C5 (amended): in AfterPress mode an Up edge is swallowed —
no emission, no event, classified suppressed, and nothing recorded —
exactly when its key has no outstanding accepted press in valid_keys
(which is the case after a suppressed Down of a key that is not
currently held down from an earlier accepted press); consequently,
starting from the initial state with all emissions succeeding, no
prefix of the synthetic stream ever contains more releases than
presses for any key: a suppressed Down never leaks an unmatched Up
downstream.  (If however a Down is suppressed while the key is still
held from an earlier accepted press, the following Up is accepted: see
the counterexample.) -/
theorem claim_C5 (cfg : Config) (hm : cfg.bounce_mode = BounceMode.down) :
    (∀ (ef : Bool) (s : FilterState) (e : KeyEdge),
      e.keystate = 0 → s.valid_keys (normalize_key e.key) = none →
      (filterStep cfg ef s e).emissions = []
      ∧ (filterStep cfg ef s e).events = []
      ∧ (filterStep cfg ef s e).decisions
          = [FilterDecision.suppress_up (normalize_key e.key) e.time])
    ∧ (∀ (k : Key) (trace : List KeyEdge) (n : ℕ),
      relCount k ((runEmissions cfg false initFilterState trace).take n)
        ≤ pressCount k ((runEmissions cfg false initFilterState trace).take n)) := by
  constructor
  · intro ef s e hks hvk
    refine ⟨?_, ?_, ?_⟩ <;>
      simp [filterStep, hm, down_ne_up, hks, hvk, stop_repeat]
  · intro k trace n
    have h := relCount_le_aux cfg k hm trace initFilterState n
    simpa [initFilterState] using h

/-- Witness for C5: the stray Up of KEY_A with no outstanding press is
fully swallowed, and in the 0/20/80 ms scenario every prefix of the
emitted stream stays balanced for KEY_A. -/
theorem claim_C5_witness :
    ((filterStep cfgDown false initFilterState
        { key := "KEY_A", keystate := 0, time := 5 }).emissions = []
      ∧ (filterStep cfgDown false initFilterState
        { key := "KEY_A", keystate := 0, time := 5 }).events = []
      ∧ (filterStep cfgDown false initFilterState
        { key := "KEY_A", keystate := 0, time := 5 }).decisions
          = [FilterDecision.suppress_up (normalize_key ("KEY_A")) 5])
    ∧ relCount ("KEY_A") ((runEmissions cfgDown false initFilterState trace8).take 2)
        ≤ pressCount ("KEY_A") ((runEmissions cfgDown false initFilterState trace8).take 2) :=
  ⟨(claim_C5 cfgDown rfl).1 false initFilterState
      { key := "KEY_A", keystate := 0, time := 5 } rfl rfl,
   (claim_C5 cfgDown rfl).2 ("KEY_A") trace8 2⟩

/-- Counterexample to C5 as stated: KEY_A is pressed at t = 0
(accepted), bounces down at t = 20 (suppressed), and is released at
t = 30.  The Up's most recent matching Down was suppressed, yet the Up
is accepted and a synthetic release is emitted, because the accepted
press of t = 0 is still outstanding in valid_keys: the code pairs Ups
with outstanding accepted presses, not with the latest Down edge. -/
theorem claim_C5_counterexample :
    runDecisions cfgDown false initFilterState traceC5 =
      [FilterDecision.accept_down ("KEY_A") 0,
       FilterDecision.suppress_down ("KEY_A") 20,
       FilterDecision.accept_up ("KEY_A") 30]
    ∧ runEmissions cfgDown false initFilterState traceC5 =
      [(("KEY_A" : Key), true, (0 : Time)), (("KEY_A" : Key), false, (30 : Time))] := by
  decide

end Debounce
